import Mathlib

/-!
# Verification of the CodeCombat level-simulation engine

Shallow embedding of the deterministic level-simulation core found in
`src/lib/game/GameScene.ts` (command interpreter, movement/collision
resolver, combat resolver, goal evaluator), together with theorems that
settle the frozen claims about the natural-language specification.

Modelling conventions:
* Grid coordinates and health values are `Int` (JS numbers used as
  integers by the code).  Overflow is not modelled: the source performs
  only small additions and subtractions on double-precision numbers.
* The JS `Map` of live enemy data (`GameScene.enemies`) is modelled as an
  insertion-ordered association list `List (String × EnemyData)`;
  `Map.set` semantics (overwrite in place, else append) is `mapSet`.
* The JS `Set`s `collectedIds` and `defeatedEnemies` are modelled as
  duplicate-free lists in insertion order; `Set.add` is `setAdd`.
* The calls the scene makes to its `onComplete` callback (the run result
  delivered to the caller) are recorded in order in the `delivered`
  field of the state.
* Rendering, tweening, sounds and delays are ignored: they do not touch
  the simulation state.
* The `while` loop of `checkAdjacentEnemies` can genuinely diverge, so it
  (and everything above it) is fuel-indexed; `none` means the loop was
  still running when the fuel ran out.
* Commands reach `executeCommand` as JS strings and are dispatched by a
  `switch` with no default, so commands are modelled as `String`.
-/

/-- A grid position, `(x, y)` with origin top-left (`GameScene.Position`). -/
structure Position where
  x : Int
  y : Int
deriving DecidableEq, Repr

/-- Hero facing (`type HeroDirection = 'north' | 'east' | 'south' | 'west'`). -/
inductive HeroDirection where
  | north
  | east
  | south
  | west
deriving DecidableEq, Repr

/-- Cell classification (`CellType` in `types.ts`); only `wall` matters to the core. -/
inductive CellType where
  | floor
  | wall
  | water
  | lava
  | goal
  | start
deriving DecidableEq, Repr

/-- Static collectible description from the level (`Collectible` in `types.ts`;
the unused `value`/`collected` fields are omitted). -/
structure Collectible where
  id : String
  type : String
  position : Position
deriving DecidableEq, Repr

/-- Static enemy description from the level (`Enemy` in `types.ts`; the fields
the simulation reads: `id`, `position`, `health`, `damage`). -/
structure Enemy where
  id : String
  position : Position
  health : Int
  damage : Int
deriving DecidableEq, Repr

/-- Goal tags (`GoalType` in `types.ts`). -/
inductive GoalType where
  | reach_position
  | collect_all
  | collect_type
  | defeat_enemies
  | survive
deriving DecidableEq, Repr

/-- A level goal (`LevelGoal` in `types.ts`). -/
structure LevelGoal where
  type : GoalType
  target : Option Position := none
  count : Option Nat := none
  collectibleType : Option String := none
  description : String
deriving DecidableEq, Repr

/-- The parts of a `Level` record the simulation core reads.  `startDirection`
is kept as a raw string because `directionFromType` maps arbitrary strings
(with fallback `east`). -/
structure Level where
  grid : List (List CellType)
  gridWidth : Int
  gridHeight : Int
  startPosition : Position
  startDirection : String
  collectibles : List Collectible
  enemies : List Enemy
  goals : List LevelGoal
  maxExecutionSteps : Nat
deriving DecidableEq, Repr

/-- Run-time data stored per enemy in the `GameScene.enemies` map
(the `sprite` field is rendering-only and omitted). -/
structure EnemyData where
  health : Int
  maxHealth : Int
  damage : Int
  position : Position
deriving DecidableEq, Repr

/-- The mutable run-time state of `GameScene` that the simulation reads and
writes, plus the list of `onComplete` calls made so far (`delivered`). -/
structure GameState where
  heroPosition : Position
  heroDirection : HeroDirection
  heroHealth : Int
  heroDead : Bool
  collectedIds : List String
  defeatedEnemies : List String
  enemies : List (String × EnemyData)
  delivered : List (Bool × String)
deriving DecidableEq, Repr

/-- `GameScene.directionFromType`: string to direction, defaulting to `east`. -/
def directionFromType (dir : String) : HeroDirection :=
  if dir = "up" then .north
  else if dir = "down" then .south
  else if dir = "left" then .west
  else if dir = "right" then .east
  else .east

/-- The per-direction unit delta (the `deltas` table of
`GameScene.getPositionInDirection`). -/
def dirDelta : HeroDirection → Position
  | .north => ⟨0, -1⟩
  | .east => ⟨1, 0⟩
  | .south => ⟨0, 1⟩
  | .west => ⟨-1, 0⟩

/-- `GameScene.getPositionInDirection`. -/
def getPositionInDirection (pos : Position) (dir : HeroDirection) (steps : Int) :
    Position :=
  let d := dirDelta dir
  ⟨pos.x + d.x * steps, pos.y + d.y * steps⟩

/-- The lookup `this.level.grid[pos.y]?.[pos.x]` with JS semantics: a negative
or out-of-range index yields `undefined` (here `none`). -/
def cellAt (grid : List (List CellType)) (pos : Position) : Option CellType :=
  if 0 ≤ pos.y ∧ 0 ≤ pos.x then
    match grid.get? pos.y.toNat with
    | some row => row.get? pos.x.toNat
    | none => none
  else none

/-- The enemy-blocking loop of `GameScene.isValidPosition`: scan the enemy map
in insertion order, returning `true` at the first live enemy at `pos`. -/
def enemyBlocks : List (String × EnemyData) → Position → Bool
  | [], _ => false
  | e :: rest, pos =>
    if e.2.position = pos ∧ 0 < e.2.health then true else enemyBlocks rest pos

/-- `GameScene.isValidPosition`: inside grid bounds, not a wall cell, and not
blocked by a live enemy. -/
def isValidPosition (lvl : Level) (enemies : List (String × EnemyData))
    (pos : Position) : Bool :=
  if pos.x < 0 ∨ lvl.gridWidth ≤ pos.x then false
  else if pos.y < 0 ∨ lvl.gridHeight ≤ pos.y then false
  else if cellAt lvl.grid pos = some CellType.wall then false
  else if enemyBlocks enemies pos then false
  else true

/-- The inner loop of `GameScene.getAdjacentEnemies` for one adjacent cell:
all live enemies stored at `pos`, in map (insertion) order. -/
def liveEnemiesAt : List (String × EnemyData) → Position → List (String × EnemyData)
  | [], _ => []
  | e :: rest, pos =>
    if e.2.position = pos ∧ 0 < e.2.health then e :: liveEnemiesAt rest pos
    else liveEnemiesAt rest pos

/-- `GameScene.getAdjacentEnemies`: outer loop over the four directions in the
fixed order north, east, south, west; inner loop over the enemy map. -/
def getAdjacentEnemies (s : GameState) : List (String × EnemyData) :=
  liveEnemiesAt s.enemies (getPositionInDirection s.heroPosition .north 1)
    ++ liveEnemiesAt s.enemies (getPositionInDirection s.heroPosition .east 1)
    ++ liveEnemiesAt s.enemies (getPositionInDirection s.heroPosition .south 1)
    ++ liveEnemiesAt s.enemies (getPositionInDirection s.heroPosition .west 1)

/-- The fixed message of `GameScene.handleHeroDeath`. -/
def deathMessage : String := "💀 Your hero has fallen! Try again."

/-- `GameScene.performEnemyAttack` followed by the death check: the enemy
deals its `damage` to the hero; if hero health drops to `≤ 0`,
`handleHeroDeath` marks the hero dead and delivers the defeat message. -/
def performEnemyAttack (damage : Int) (s : GameState) : GameState :=
  let h := s.heroHealth - damage
  if h ≤ 0 then
    { s with
      heroHealth := h
      heroDead := true
      delivered := s.delivered ++ [(false, deathMessage)] }
  else { s with heroHealth := h }

/-- The `for` loop inside `GameScene.checkAdjacentEnemies`: each snapshot
enemy attacks in turn, stopping as soon as the hero health is `≤ 0`. -/
def attackPass : List (String × EnemyData) → GameState → GameState
  | [], s => s
  | e :: rest, s =>
    if s.heroHealth ≤ 0 then s
    else attackPass rest (performEnemyAttack e.2.damage s)

/-- The `while` loop of `GameScene.checkAdjacentEnemies`, fuel-indexed by the
number of passes allowed; `none` means the loop did not exit within `fuel`
passes (the source loop can genuinely run forever). -/
def checkAdjacentEnemies : Nat → GameState → Option GameState
  | 0, _ => none
  | fuel + 1, s =>
    if 0 < s.heroHealth ∧ s.heroDead = false then
      match getAdjacentEnemies s with
      | [] => some s
      | e :: rest =>
        let s1 := attackPass (e :: rest) s
        if s1.heroHealth ≤ 0 then some s1
        else checkAdjacentEnemies fuel s1
    else some s

/-- `GameScene.moveHero`: compute the target cell, reject invalid moves with
the state unchanged, otherwise move and run the adjacency check. -/
def moveHero (lvl : Level) (fuel : Nat) (steps : Int) (s : GameState) :
    Option (Bool × GameState) :=
  let newPos := getPositionInDirection s.heroPosition s.heroDirection steps
  if isValidPosition lvl s.enemies newPos then
    match checkAdjacentEnemies fuel { s with heroPosition := newPos } with
    | none => none
    | some s1 => some (true, s1)
  else some (false, s)

/-- The `turns` rotation table of `GameScene.turnHero`: `(left, right)`. -/
def turns : HeroDirection → HeroDirection × HeroDirection
  | .north => (.west, .east)
  | .east => (.north, .south)
  | .south => (.east, .west)
  | .west => (.south, .north)

/-- `GameScene.turnHero`. -/
def turnHero (left : Bool) (s : GameState) : GameState :=
  { s with
    heroDirection := if left then (turns s.heroDirection).1 else (turns s.heroDirection).2 }

/-- JS `Set.add`: append unless already present. -/
def setAdd (l : List String) (x : String) : List String :=
  if x ∈ l then l else l ++ [x]

/-- The `find` of `GameScene.collectGem`: the first collectible in level
(definition) order at `pos` whose id is not yet collected. -/
def findCollectible : List Collectible → Position → List String → Option Collectible
  | [], _, _ => none
  | c :: rest, pos, collected =>
    if c.position = pos ∧ c.id ∉ collected then some c
    else findCollectible rest pos collected

/-- `GameScene.collectGem`. -/
def collectGem (lvl : Level) (s : GameState) : Bool × GameState :=
  match findCollectible lvl.collectibles s.heroPosition s.collectedIds with
  | none => (false, s)
  | some c => (true, { s with collectedIds := setAdd s.collectedIds c.id })

/-- The scan of `GameScene.getEnemyAhead` over the enemy map: the first live
enemy stored at `pos`. -/
def firstLiveAt : List (String × EnemyData) → Position → Option (String × EnemyData)
  | [], _ => none
  | e :: rest, pos =>
    if e.2.position = pos ∧ 0 < e.2.health then some e else firstLiveAt rest pos

/-- `GameScene.getEnemyAhead`. -/
def getEnemyAhead (s : GameState) : Option (String × EnemyData) :=
  firstLiveAt s.enemies (getPositionInDirection s.heroPosition s.heroDirection 1)

/-- The mutation `data.health -= attackDamage` on the map entry. -/
def updateEnemyHealth (enemies : List (String × EnemyData)) (id : String)
    (h : Int) : List (String × EnemyData) :=
  enemies.map fun e => if e.1 = id then (e.1, { e.2 with health := h }) else e

/-- `GameScene.attackEnemy`: miss if no live enemy ahead; otherwise deal the
fixed 20 damage; on kill record the defeat, otherwise the enemy counterattacks.
Note the counterattack branch of the source lowers `heroHealth` but never sets
`heroDead` and never calls `handleHeroDeath`. -/
def attackEnemy (s : GameState) : GameState :=
  match getEnemyAhead s with
  | none => s
  | some (id, data) =>
    let attackDamage : Int := 20
    let newHealth := data.health - attackDamage
    let s1 := { s with enemies := updateEnemyHealth s.enemies id newHealth }
    if newHealth ≤ 0 then
      { s1 with defeatedEnemies := setAdd s1.defeatedEnemies id }
    else
      { s1 with heroHealth := s1.heroHealth - data.damage }

/-- Whether one goal is met (`GameScene.checkWinCondition`, the `switch` over
`goal.type`).  `goalMet` is initialised `false` and the switch has no case for
`survive`, so a `survive` goal is never met.  The `goal.count || 1` uses JS
falsiness, so a stored count of `0` also means `1`. -/
def goalMet (lvl : Level) (s : GameState) (g : LevelGoal) : Bool :=
  match g.type with
  | .reach_position =>
    match g.target with
    | some t => decide (s.heroPosition = t)
    | none => false
  | .collect_all => decide (s.collectedIds.length = lvl.collectibles.length)
  | .collect_type =>
    let collected := lvl.collectibles.filter fun c =>
      decide (some c.type = g.collectibleType ∧ c.id ∈ s.collectedIds)
    let needed := match g.count with
      | some n => if n = 0 then 1 else n
      | none => 1
    decide (needed ≤ collected.length)
  | .defeat_enemies => decide (s.defeatedEnemies.length = lvl.enemies.length)
  | .survive => false

/-- The goal loop of `GameScene.checkWinCondition`: the conjunction of all
goals plus the per-goal checklist messages, in goal order. -/
def evalGoals (lvl : Level) (s : GameState) : List LevelGoal → Bool × List String
  | [] => (true, [])
  | g :: rest =>
    let met := goalMet lvl s g
    let r := evalGoals lvl s rest
    (met && r.1,
      (if met then "✅ " ++ g.description else "❌ " ++ g.description) :: r.2)

/-- `GameScene.checkWinCondition`: deliver the success message, or the failure
message containing the per-goal checklist. -/
def checkWinCondition (lvl : Level) (s : GameState) : GameState :=
  let r := evalGoals lvl s lvl.goals
  if r.1 then
    { s with delivered := s.delivered ++ [(true, "🎉 Quest Complete!")] }
  else
    { s with
      delivered := s.delivered ++
        [(false, "Quest incomplete:\n" ++ String.intercalate "\n" r.2)] }

/-- `GameScene.executeCommand`: the `switch (command)` dispatch.  The switch
has no default clause, so any other string is a no-op.  The boolean results of
`moveHero`/`collectGem` are discarded, as in the source. -/
def executeCommand (lvl : Level) (fuel : Nat) (c : String) (s : GameState) :
    Option GameState :=
  if c = "move_forward" then (moveHero lvl fuel 1 s).map (·.2)
  else if c = "move_backward" then (moveHero lvl fuel (-1) s).map (·.2)
  else if c = "turn_left" then some (turnHero true s)
  else if c = "turn_right" then some (turnHero false s)
  else if c = "collect_sample" then some ((collectGem lvl s).2)
  else if c = "attack" then some (attackEnemy s)
  else some s

/-- JS `Map.set`: overwrite the entry in place if the key exists, else append. -/
def mapSet (m : List (String × EnemyData)) (id : String) (v : EnemyData) :
    List (String × EnemyData) :=
  if m.any (fun e => e.1 = id) then
    m.map fun e => if e.1 = id then (id, v) else e
  else m ++ [(id, v)]

/-- `GameScene.drawEnemies`/`createEnemy`: populate the enemy map from the
level list, with `maxHealth` initialised to the starting `health`. -/
def initEnemies (es : List Enemy) : List (String × EnemyData) :=
  es.foldl (fun m e => mapSet m e.id ⟨e.health, e.health, e.damage, e.position⟩) []

/-- The state produced by `GameScene.init`/`resetGame` at the start of a run:
hero at the level start, facing the start direction, health 100, nothing
collected or defeated. -/
def initialState (lvl : Level) : GameState :=
  { heroPosition := lvl.startPosition
    heroDirection := directionFromType lvl.startDirection
    heroHealth := 100
    heroDead := false
    collectedIds := []
    defeatedEnemies := []
    enemies := initEnemies lvl.enemies
    delivered := [] }

/-- The command loop of `GameScene.executeCommands`: before each command the
hero-dead guard (`heroDead || heroHealth <= 0`) returns early with nothing
delivered; after the last command, `checkWinCondition` runs whenever
`heroDead` is still `false` (even if `heroHealth ≤ 0`). -/
def runCommands (lvl : Level) (fuel : Nat) : List String → GameState → Option GameState
  | [], s => some (if s.heroDead = false then checkWinCondition lvl s else s)
  | c :: rest, s =>
    if s.heroDead = true ∨ s.heroHealth ≤ 0 then some s
    else
      match executeCommand lvl fuel c s with
      | none => none
      | some s1 => runCommands lvl fuel rest s1

/-- `GameScene.executeCommands`: reset to the initial state, then run the
command list. -/
def executeCommands (lvl : Level) (fuel : Nat) (commands : List String) :
    Option GameState :=
  runCommands lvl fuel commands (initialState lvl)

/-! ## Specification-side definitions

These state properties in the words of the specification, to be compared
with the source-derived functions above. -/

/-- The rejection condition of spec §4.2, stated in the words of claim C5:
the target is outside grid bounds, is a cell of type `wall`, or is occupied
by a live enemy. -/
abbrev moveBlocked (lvl : Level) (s : GameState) (target : Position) : Prop :=
  ¬ (0 ≤ target.x ∧ target.x < lvl.gridWidth ∧ 0 ≤ target.y ∧ target.y < lvl.gridHeight)
    ∨ cellAt lvl.grid target = some CellType.wall
    ∨ ∃ e ∈ s.enemies, e.2.position = target ∧ 0 < e.2.health

/-- The hero-position invariant of claim C6: in bounds, not on a wall cell,
and not on a live enemy. -/
abbrev heroOk (lvl : Level) (s : GameState) : Prop :=
  (0 ≤ s.heroPosition.x ∧ s.heroPosition.x < lvl.gridWidth
      ∧ 0 ≤ s.heroPosition.y ∧ s.heroPosition.y < lvl.gridHeight)
    ∧ cellAt lvl.grid s.heroPosition ≠ some CellType.wall
    ∧ ∀ e ∈ s.enemies, 0 < e.2.health → e.2.position ≠ s.heroPosition

/-- The enemy map has duplicate-free keys (guaranteed by `initEnemies`,
since JS `Map` keys are unique). -/
abbrev keysNodup (s : GameState) : Prop := (s.enemies.map Prod.fst).Nodup

/-- Orthogonal adjacency, stated in the words of claim C7. -/
abbrev isOrthAdjacent (hero q : Position) : Prop :=
  q = getPositionInDirection hero .north 1 ∨ q = getPositionInDirection hero .east 1
    ∨ q = getPositionInDirection hero .south 1 ∨ q = getPositionInDirection hero .west 1

/-- The attack order that claim C7 asserts: the live orthogonally-adjacent
enemies in the order they are stored in the enemy collection. -/
def storedOrderAdjacent (s : GameState) : List (String × EnemyData) :=
  s.enemies.filter fun e =>
    decide (isOrthAdjacent s.heroPosition e.2.position ∧ 0 < e.2.health)

/-- Replace a level's `maxExecutionSteps` (for claim C2: the interpreter
never reads this field). -/
def withMaxSteps (lvl : Level) (n : Nat) : Level :=
  { lvl with maxExecutionSteps := n }

/-! ## Concrete levels and runs used by counterexamples and witnesses -/

/-- The two-attack orc scenario of claim C1: 3×1 open corridor, hero at
`(0,0)` facing east, a single stationary enemy of health 40 and damage 10
directly in the hero's path at `(1,0)`. -/
def lvlC1 : Level :=
  { grid := [[CellType.floor, CellType.floor, CellType.floor]]
    gridWidth := 3
    gridHeight := 1
    startPosition := ⟨0, 0⟩
    startDirection := "right"
    collectibles := []
    enemies := [⟨"e1", ⟨1, 0⟩, 40, 10⟩]
    goals := []
    maxExecutionSteps := 50 }

/-- The command sequence of claim C1. -/
def c1Commands : List String := ["move_forward", "attack", "attack", "move_forward"]

/-- The final state the code actually produces for the claim C1 scenario. -/
def c1Final : GameState :=
  { heroPosition := ⟨1, 0⟩
    heroDirection := .east
    heroHealth := 90
    heroDead := false
    collectedIds := []
    defeatedEnemies := ["e1"]
    enemies := [("e1", ⟨0, 40, 10, ⟨1, 0⟩⟩)]
    delivered := [(true, "🎉 Quest Complete!")] }

/-- Claim C2 scenario: a level whose `maxExecutionSteps` is 1, run with two
commands. -/
def lvlC2 : Level :=
  { grid := [[CellType.floor]]
    gridWidth := 1
    gridHeight := 1
    startPosition := ⟨0, 0⟩
    startDirection := "right"
    collectibles := []
    enemies := []
    goals := []
    maxExecutionSteps := 1 }

/-- The final state of the claim C2 run: both `turn_left` commands executed
(direction went east → north → west) and the goal evaluator delivered
success — no "too many steps" failure. -/
def c2Final : GameState :=
  { heroPosition := ⟨0, 0⟩
    heroDirection := .west
    heroHealth := 100
    heroDead := false
    collectedIds := []
    defeatedEnemies := []
    enemies := []
    delivered := [(true, "🎉 Quest Complete!")] }

/-- Claim C3 scenario: enemy `k` directly ahead with health 40 and
counterattack damage 100, so the hero's first `attack` leaves the enemy alive
and the counterattack drops the hero to health 0. -/
def lvlC3 : Level :=
  { grid := [[CellType.floor, CellType.floor, CellType.floor]]
    gridWidth := 3
    gridHeight := 1
    startPosition := ⟨0, 0⟩
    startDirection := "right"
    collectibles := []
    enemies := [⟨"k", ⟨1, 0⟩, 40, 100⟩]
    goals := []
    maxExecutionSteps := 50 }

/-- Final state of running `["attack", "turn_left"]` on `lvlC3`: hero health
0 but `heroDead = false`, the `turn_left` was skipped, and nothing was ever
delivered to the caller. -/
def c3FinalA : GameState :=
  { heroPosition := ⟨0, 0⟩
    heroDirection := .east
    heroHealth := 0
    heroDead := false
    collectedIds := []
    defeatedEnemies := []
    enemies := [("k", ⟨20, 40, 100, ⟨1, 0⟩⟩)]
    delivered := [] }

/-- Final state of running `["attack"]` on `lvlC3`: hero health 0 but goal
evaluation still ran and delivered success. -/
def c3FinalB : GameState :=
  { c3FinalA with delivered := [(true, "🎉 Quest Complete!")] }

/-- Claim C4 scenario: a level whose only goal is `survive`, with no enemies
and an empty command list — the hero trivially survives. -/
def lvlC4 : Level :=
  { grid := [[CellType.floor]]
    gridWidth := 1
    gridHeight := 1
    startPosition := ⟨0, 0⟩
    startDirection := "right"
    collectibles := []
    enemies := []
    goals := [{ type := GoalType.survive, description := "Stay alive" }]
    maxExecutionSteps := 50 }

/-- Final state of the claim C4 run: the `survive` goal was reported failed. -/
def c4Final : GameState :=
  { heroPosition := ⟨0, 0⟩
    heroDirection := .east
    heroHealth := 100
    heroDead := false
    collectedIds := []
    defeatedEnemies := []
    enemies := []
    delivered := [(false, "Quest incomplete:\n❌ Stay alive")] }

/-- Claim C5 witness level: wall directly east of the start. -/
def lvlC5 : Level :=
  { grid := [[CellType.floor, CellType.wall]]
    gridWidth := 2
    gridHeight := 1
    startPosition := ⟨0, 0⟩
    startDirection := "right"
    collectibles := []
    enemies := []
    goals := []
    maxExecutionSteps := 50 }

/-- Claim C6 witness level: 2×2 grid with a wall and a live enemy. -/
def lvlC6 : Level :=
  { grid := [[CellType.floor, CellType.wall],
             [CellType.floor, CellType.floor]]
    gridWidth := 2
    gridHeight := 2
    startPosition := ⟨0, 0⟩
    startDirection := "down"
    collectibles := []
    enemies := [⟨"g", ⟨1, 1⟩, 20, 5⟩]
    goals := []
    maxExecutionSteps := 50 }

/-- Final state of the claim C6 witness run `["move_forward"]` on `lvlC6`:
the hero moves to `(0,1)` and the adjacent enemy `g` retaliates until the
hero dies, but the position invariant still holds. -/
def c6Final : GameState :=
  { heroPosition := ⟨0, 1⟩
    heroDirection := .south
    heroHealth := 0
    heroDead := true
    collectedIds := []
    defeatedEnemies := []
    enemies := [("g", ⟨20, 20, 5, ⟨1, 1⟩⟩)]
    delivered := [(false, deathMessage)] }

/-- Claim C7 scenario: hero at `(1,1)`; enemy `a` (stored first) south of the
hero, enemy `b` (stored second) north of the hero. -/
def c7State : GameState :=
  { heroPosition := ⟨1, 1⟩
    heroDirection := .east
    heroHealth := 100
    heroDead := false
    collectedIds := []
    defeatedEnemies := []
    enemies := [("a", ⟨30, 30, 5, ⟨1, 2⟩⟩), ("b", ⟨30, 30, 5, ⟨1, 0⟩⟩)]
    delivered := [] }

/-- Claim C8 witness level: two collectibles stacked on the start cell and a
third elsewhere. -/
def lvlC8 : Level :=
  { grid := [[CellType.floor, CellType.floor]]
    gridWidth := 2
    gridHeight := 1
    startPosition := ⟨0, 0⟩
    startDirection := "right"
    collectibles := [⟨"s1", "sample", ⟨0, 0⟩⟩, ⟨"s2", "sample", ⟨0, 0⟩⟩,
                     ⟨"s3", "gem", ⟨1, 0⟩⟩]
    enemies := []
    goals := []
    maxExecutionSteps := 50 }

/-- Claim C9 witness level. -/
def lvlC9 : Level :=
  { grid := [[CellType.floor]]
    gridWidth := 1
    gridHeight := 1
    startPosition := ⟨0, 0⟩
    startDirection := "right"
    collectibles := []
    enemies := []
    goals := []
    maxExecutionSteps := 50 }

/-- Claim C10 counterexample state: the hero is adjacent to `z` (damage 0,
north) and `d` (damage 200, south); `z` has damage 0 yet the adjacency loop
terminates, because `d` kills the hero in the first pass. -/
def c10Mixed : GameState :=
  { heroPosition := ⟨1, 1⟩
    heroDirection := .east
    heroHealth := 100
    heroDead := false
    collectedIds := []
    defeatedEnemies := []
    enemies := [("z", ⟨30, 30, 0, ⟨1, 0⟩⟩), ("d", ⟨30, 30, 200, ⟨1, 2⟩⟩)]
    delivered := [] }

/-- The state `c10Mixed` reaches when the adjacency loop exits. -/
def c10MixedFinal : GameState :=
  { c10Mixed with
    heroHealth := -100
    heroDead := true
    delivered := [(false, deathMessage)] }

/-- Claim C10 witness state for the divergence half: a single adjacent live
enemy of damage 0. -/
def c10Zero : GameState :=
  { c10Mixed with enemies := [("z", ⟨30, 30, 0, ⟨1, 0⟩⟩)] }

/-! ## Preservation lemmas for the combat loop -/

theorem performEnemyAttack_preserves (d : Int) (s : GameState) :
    (performEnemyAttack d s).heroPosition = s.heroPosition
      ∧ (performEnemyAttack d s).heroDirection = s.heroDirection
      ∧ (performEnemyAttack d s).enemies = s.enemies
      ∧ (performEnemyAttack d s).collectedIds = s.collectedIds
      ∧ (performEnemyAttack d s).defeatedEnemies = s.defeatedEnemies := by
  unfold performEnemyAttack
  dsimp only
  split <;> exact ⟨rfl, rfl, rfl, rfl, rfl⟩

theorem performEnemyAttack_health (d : Int) (s : GameState) :
    (performEnemyAttack d s).heroHealth = s.heroHealth - d := by
  unfold performEnemyAttack
  dsimp only
  split <;> rfl

theorem attackPass_preserves (l : List (String × EnemyData)) (s : GameState) :
    (attackPass l s).heroPosition = s.heroPosition
      ∧ (attackPass l s).heroDirection = s.heroDirection
      ∧ (attackPass l s).enemies = s.enemies
      ∧ (attackPass l s).collectedIds = s.collectedIds
      ∧ (attackPass l s).defeatedEnemies = s.defeatedEnemies := by
  induction l generalizing s with
  | nil => exact ⟨rfl, rfl, rfl, rfl, rfl⟩
  | cons e rest ih =>
    unfold attackPass
    split
    · exact ⟨rfl, rfl, rfl, rfl, rfl⟩
    · have h1 := ih (performEnemyAttack e.2.damage s)
      have h2 := performEnemyAttack_preserves e.2.damage s
      exact ⟨h1.1.trans h2.1, h1.2.1.trans h2.2.1, h1.2.2.1.trans h2.2.2.1,
        h1.2.2.2.1.trans h2.2.2.2.1, h1.2.2.2.2.trans h2.2.2.2.2⟩

theorem attackPass_health_le (l : List (String × EnemyData)) (s : GameState)
    (h : ∀ e ∈ l, 0 ≤ e.2.damage) :
    (attackPass l s).heroHealth ≤ s.heroHealth := by
  induction l generalizing s with
  | nil => exact le_refl _
  | cons e rest ih =>
    unfold attackPass
    split
    · exact le_refl _
    · have h1 := ih (performEnemyAttack e.2.damage s) fun x hx => h x (List.mem_cons_of_mem _ hx)
      have h2 := performEnemyAttack_health e.2.damage s
      have h3 : 0 ≤ e.2.damage := h e (List.mem_cons_self _ _)
      omega

theorem attackPass_health_decreases (l : List (String × EnemyData)) (s : GameState)
    (h0 : ∀ e ∈ l, 0 ≤ e.2.damage) (hw : ∃ e ∈ l, 1 ≤ e.2.damage)
    (hs : 0 < s.heroHealth) :
    (attackPass l s).heroHealth ≤ s.heroHealth - 1 := by
  induction l generalizing s with
  | nil =>
    obtain ⟨e, he, _⟩ := hw
    cases he
  | cons e rest ih =>
    unfold attackPass
    rw [if_neg (by omega)]
    have hph := performEnemyAttack_health e.2.damage s
    have he0 : 0 ≤ e.2.damage := h0 e (List.mem_cons_self _ _)
    by_cases hcase : 1 ≤ e.2.damage
    · have hle := attackPass_health_le rest (performEnemyAttack e.2.damage s)
        fun x hx => h0 x (List.mem_cons_of_mem _ hx)
      omega
    · obtain ⟨w, hwmem, hw1⟩ := hw
      have hwrest : w ∈ rest := by
        rcases List.mem_cons.mp hwmem with rfl | h'
        · exact absurd hw1 hcase
        · exact h'
      have hpos : 0 < (performEnemyAttack e.2.damage s).heroHealth := by omega
      have hrec := ih (performEnemyAttack e.2.damage s)
        (fun x hx => h0 x (List.mem_cons_of_mem _ hx)) ⟨w, hwrest, hw1⟩ hpos
      omega

theorem getAdjacentEnemies_congr (s t : GameState)
    (hp : s.heroPosition = t.heroPosition) (he : s.enemies = t.enemies) :
    getAdjacentEnemies s = getAdjacentEnemies t := by
  unfold getAdjacentEnemies
  rw [hp, he]

theorem checkAdjacentEnemies_preserves (fuel : Nat) (s r : GameState)
    (h : checkAdjacentEnemies fuel s = some r) :
    r.heroPosition = s.heroPosition
      ∧ r.heroDirection = s.heroDirection
      ∧ r.enemies = s.enemies
      ∧ r.collectedIds = s.collectedIds
      ∧ r.defeatedEnemies = s.defeatedEnemies := by
  induction fuel generalizing s with
  | zero => simp [checkAdjacentEnemies] at h
  | succ n ih =>
    unfold checkAdjacentEnemies at h
    split at h
    · split at h
      · cases h
        exact ⟨rfl, rfl, rfl, rfl, rfl⟩
      · rename_i e rest heq
        dsimp only at h
        split at h
        · cases h
          have := attackPass_preserves (e :: rest) s
          exact this
        · have h1 := ih _ h
          have h2 := attackPass_preserves (e :: rest) s
          exact ⟨h1.1.trans h2.1, h1.2.1.trans h2.2.1, h1.2.2.1.trans h2.2.2.1,
            h1.2.2.2.1.trans h2.2.2.2.1, h1.2.2.2.2.trans h2.2.2.2.2⟩
    · cases h
      exact ⟨rfl, rfl, rfl, rfl, rfl⟩

/-! ## Characterizing the movement validity check -/

theorem enemyBlocks_eq_true_iff (l : List (String × EnemyData)) (pos : Position) :
    enemyBlocks l pos = true ↔ ∃ e ∈ l, e.2.position = pos ∧ 0 < e.2.health := by
  induction l with
  | nil => simp [enemyBlocks]
  | cons e rest ih =>
    unfold enemyBlocks
    split
    · rename_i hc
      constructor
      · intro _
        exact ⟨e, List.mem_cons_self _ _, hc⟩
      · intro _
        rfl
    · rename_i hc
      rw [ih]
      constructor
      · rintro ⟨x, hx, hp⟩
        exact ⟨x, List.mem_cons_of_mem _ hx, hp⟩
      · rintro ⟨x, hx, hp⟩
        rcases List.mem_cons.mp hx with rfl | hx'
        · exact absurd hp hc
        · exact ⟨x, hx', hp⟩

theorem isValidPosition_eq_false_iff (lvl : Level) (s : GameState) (pos : Position) :
    isValidPosition lvl s.enemies pos = false ↔ moveBlocked lvl s pos := by
  unfold isValidPosition
  split_ifs with h1 h2 h3 h4
  · exact iff_of_true rfl (Or.inl (by omega))
  · exact iff_of_true rfl (Or.inl (by omega))
  · exact iff_of_true rfl (Or.inr (Or.inl h3))
  · exact iff_of_true rfl (Or.inr (Or.inr ((enemyBlocks_eq_true_iff _ _).mp h4)))
  · constructor
    · intro h
      exact absurd h (by simp)
    · rintro (hb | hw | he)
      · exact absurd (by omega : pos.x < 0 ∨ lvl.gridWidth ≤ pos.x ∨ pos.y < 0
          ∨ lvl.gridHeight ≤ pos.y) (by tauto)
      · exact absurd hw h3
      · exact absurd ((enemyBlocks_eq_true_iff _ _).mpr he) (by simp [h4])

/-- **C5.** For a `move_forward`/`move_backward` command (steps `+1`/`−1`),
the target cell is the current position plus the direction unit delta times
`steps`; the move is rejected, returning `false` with the whole state
unchanged, exactly when the target is outside grid bounds, is a wall cell, or
holds a live enemy; otherwise the hero's position is updated to the target. -/
theorem c5_move_rule (lvl : Level) (fuel : Nat) (s : GameState) (steps : Int)
    (_hsteps : steps = 1 ∨ steps = -1) :
    (moveHero lvl fuel steps s = some (false, s) ↔
        moveBlocked lvl s (getPositionInDirection s.heroPosition s.heroDirection steps))
      ∧ (∀ b s1, moveHero lvl fuel steps s = some (b, s1) →
          ¬ moveBlocked lvl s (getPositionInDirection s.heroPosition s.heroDirection steps) →
          b = true ∧ s1.heroPosition = getPositionInDirection s.heroPosition s.heroDirection steps) := by
  constructor
  · constructor
    · intro h
      by_contra hnb
      have hv : isValidPosition lvl s.enemies
          (getPositionInDirection s.heroPosition s.heroDirection steps) = true := by
        cases hb : isValidPosition lvl s.enemies
          (getPositionInDirection s.heroPosition s.heroDirection steps) with
        | false => exact absurd ((isValidPosition_eq_false_iff lvl s _).mp hb) hnb
        | true => rfl
      simp only [moveHero, hv, if_true] at h
      split at h
      · exact Option.noConfusion h
      · simp at h
    · intro hb
      have hv := (isValidPosition_eq_false_iff lvl s _).mpr hb
      simp [moveHero, hv]
  · intro b s1 h hnb
    have hv : isValidPosition lvl s.enemies
        (getPositionInDirection s.heroPosition s.heroDirection steps) = true := by
      cases hb : isValidPosition lvl s.enemies
        (getPositionInDirection s.heroPosition s.heroDirection steps) with
      | false => exact absurd ((isValidPosition_eq_false_iff lvl s _).mp hb) hnb
      | true => rfl
    simp only [moveHero, hv, if_true] at h
    split at h
    · exact Option.noConfusion h
    · rename_i s2 hsome
      have hinj := Option.some.injEq _ _ ▸ h
      have hpair : (true, s2) = (b, s1) := by
        exact Option.some.inj h
      have hb' : b = true := (Prod.mk.injEq _ _ _ _ ▸ hpair).1.symm
      have hs' : s2 = s1 := (Prod.mk.injEq _ _ _ _ ▸ hpair).2
      have hpres := checkAdjacentEnemies_preserves fuel _ _ hsome
      exact ⟨hb', by rw [← hs']; exact hpres.1⟩

/-- Witness for C5: on `lvlC5` the cell ahead of the start is a wall, and the
move is rejected with the state unchanged. -/
theorem c5_move_rule_witness :
    moveHero lvlC5 1 1 (initialState lvlC5) = some (false, initialState lvlC5) :=
  (c5_move_rule lvlC5 1 (initialState lvlC5) 1 (Or.inl rfl)).1.mpr (by decide)

/-- **C9.** Any command string outside the six-case `switch` of
`executeCommand` is a no-op: the state is returned unchanged, no error is
signalled, and the run continues with the next command. -/
theorem c9_unknown_command_noop (lvl : Level) (fuel : Nat) (s : GameState) (c : String)
    (h : c ∉ ["move_forward", "move_backward", "turn_left", "turn_right",
      "collect_sample", "attack"]) :
    executeCommand lvl fuel c s = some s
      ∧ (∀ rest, ¬ (s.heroDead = true ∨ s.heroHealth ≤ 0) →
          runCommands lvl fuel (c :: rest) s = runCommands lvl fuel rest s) := by
  have h6 : c ≠ "move_forward" ∧ c ≠ "move_backward" ∧ c ≠ "turn_left"
      ∧ c ≠ "turn_right" ∧ c ≠ "collect_sample" ∧ c ≠ "attack" := by
    simp only [List.mem_cons, List.mem_singleton] at h
    tauto
  obtain ⟨h1, h2, h3, h4, h5, h6'⟩ := h6
  have hcmd : executeCommand lvl fuel c s = some s := by
    unfold executeCommand
    rw [if_neg h1, if_neg h2, if_neg h3, if_neg h4, if_neg h5, if_neg h6']
  refine ⟨hcmd, fun rest halive => ?_⟩
  simp only [runCommands, if_neg halive, hcmd]

/-- Witness for C9: the unknown command `"fly"` leaves the state unchanged
and the run continues. -/
theorem c9_unknown_command_noop_witness :
    executeCommand lvlC9 1 "fly" (initialState lvlC9) = some (initialState lvlC9)
      ∧ runCommands lvlC9 1 ["fly"] (initialState lvlC9)
          = runCommands lvlC9 1 [] (initialState lvlC9) := by
  have h := c9_unknown_command_noop lvlC9 1 (initialState lvlC9) "fly" (by decide)
  exact ⟨h.1, h.2 [] (by decide)⟩

/-! ## Claim C1: the two-attack orc scenario -/

/-- **C1, counterexample.** Running
`[move_forward, attack, attack, move_forward]` on the claimed layout (single
stationary enemy of health 40 / damage 10 in the hero's path, hero attack 20,
hero health 100) does *not* leave the hero at health 80 after two successful
moves: the code produces health 90 with the hero advanced one cell, because
the first move is rejected (the live enemy blocks its target cell) and the
killing second attack draws no retaliation. -/
theorem c1_counterexample :
    executeCommands lvlC1 9 c1Commands = some c1Final
      ∧ c1Final.heroHealth = 90
      ∧ ¬ c1Final.heroHealth = 80
      ∧ c1Final.heroPosition = ⟨1, 0⟩
      ∧ ¬ c1Final.heroPosition = ⟨2, 0⟩ := by
  decide

/-- **C1, amended.** In the two-attack orc scenario the enemy dies on the
second attack and the hero survives — but the first `move_forward` is
rejected because the live enemy blocks it, the hero takes exactly one
retaliation hit (the killing attack draws none), ends at health 90, and only
the final move succeeds, onto the enemy's former cell `(1,0)`. -/
theorem c1_two_attack_scenario :
    moveHero lvlC1 9 1 (initialState lvlC1) = some (false, initialState lvlC1)
      ∧ (attackEnemy (initialState lvlC1)).heroHealth = 90
      ∧ (attackEnemy (initialState lvlC1)).enemies
          = [("e1", ⟨20, 40, 10, ⟨1, 0⟩⟩)]
      ∧ (attackEnemy (initialState lvlC1)).defeatedEnemies = []
      ∧ (attackEnemy (attackEnemy (initialState lvlC1))).heroHealth = 90
      ∧ (attackEnemy (attackEnemy (initialState lvlC1))).enemies
          = [("e1", ⟨0, 40, 10, ⟨1, 0⟩⟩)]
      ∧ (attackEnemy (attackEnemy (initialState lvlC1))).defeatedEnemies = ["e1"]
      ∧ executeCommands lvlC1 9 c1Commands = some c1Final
      ∧ c1Final.heroPosition = ⟨1, 0⟩
      ∧ c1Final.heroHealth = 90
      ∧ c1Final.heroDead = false := by
  decide

/-! ## Claim C2: the command limit is not enforced -/

theorem initialState_withMaxSteps (lvl : Level) (n : Nat) :
    initialState (withMaxSteps lvl n) = initialState lvl := by
  cases lvl
  rfl

theorem goalMet_withMaxSteps (lvl : Level) (n : Nat) (s : GameState) (g : LevelGoal) :
    goalMet (withMaxSteps lvl n) s g = goalMet lvl s g := by
  cases lvl
  rcases g with ⟨t, tgt, cnt, ct, d⟩
  cases t <;> rfl

theorem evalGoals_withMaxSteps (lvl : Level) (n : Nat) (s : GameState)
    (gs : List LevelGoal) :
    evalGoals (withMaxSteps lvl n) s gs = evalGoals lvl s gs := by
  induction gs with
  | nil => rfl
  | cons g rest ih => simp only [evalGoals, goalMet_withMaxSteps, ih]

theorem checkWinCondition_withMaxSteps (lvl : Level) (n : Nat) (s : GameState) :
    checkWinCondition (withMaxSteps lvl n) s = checkWinCondition lvl s := by
  have hg : (withMaxSteps lvl n).goals = lvl.goals := by
    cases lvl
    rfl
  unfold checkWinCondition
  rw [hg, evalGoals_withMaxSteps]

theorem executeCommand_withMaxSteps (lvl : Level) (n : Nat) (fuel : Nat)
    (c : String) (s : GameState) :
    executeCommand (withMaxSteps lvl n) fuel c s = executeCommand lvl fuel c s := by
  cases lvl
  rfl

theorem runCommands_withMaxSteps (lvl : Level) (n : Nat) (fuel : Nat)
    (cmds : List String) :
    ∀ s, runCommands (withMaxSteps lvl n) fuel cmds s = runCommands lvl fuel cmds s := by
  induction cmds with
  | nil =>
    intro s
    simp [runCommands, checkWinCondition_withMaxSteps]
  | cons c rest ih =>
    intro s
    simp only [runCommands, executeCommand_withMaxSteps, ih]

/-- **C2, counterexample.** A run of two commands on a level with
`maxExecutionSteps = 1` executes both commands (the facing turns twice,
east → north → west) and ends with the goal-evaluator success verdict — not a
failure with a "too many steps" message.  The interpreter never stops at the
limit. -/
theorem c2_counterexample :
    lvlC2.maxExecutionSteps = 1
      ∧ (["turn_left", "turn_left"] : List String).length = 2
      ∧ executeCommands lvlC2 2 ["turn_left", "turn_left"] = some c2Final
      ∧ c2Final.heroDirection = .west
      ∧ c2Final.delivered = [(true, "🎉 Quest Complete!")] := by
  decide

/-- **C2, amended.** The interpreter ignores `maxExecutionSteps` entirely:
the result of a run is unchanged under any modification of the field, so all
commands are executed regardless of the limit and the verdict comes from goal
evaluation (or death) alone. -/
theorem c2_limit_ignored (lvl : Level) (n : Nat) (fuel : Nat) (cmds : List String) :
    executeCommands (withMaxSteps lvl n) fuel cmds = executeCommands lvl fuel cmds := by
  unfold executeCommands
  rw [initialState_withMaxSteps, runCommands_withMaxSteps]

/-! ## Claim C3: death by counterattack inside the attack resolver -/

/-- **C3, code behaviour at the failing input.** On `lvlC3` the first
`attack` leaves the enemy alive and its counterattack drops the hero to
health 0, but the attack resolver never marks the hero dead: with a command
remaining, the run stops early delivering *nothing* (no death verdict, no
defeat message, and the pending `turn_left` is skipped); with `attack` as the
last command, goal evaluation is *not* skipped and even delivers success. -/
theorem c3_code_behavior :
    executeCommands lvlC3 9 ["attack", "turn_left"] = some c3FinalA
      ∧ c3FinalA.heroHealth = 0
      ∧ c3FinalA.heroDead = false
      ∧ c3FinalA.delivered = []
      ∧ c3FinalA.heroDirection = .east
      ∧ executeCommands lvlC3 9 ["attack"] = some c3FinalB
      ∧ c3FinalB.heroHealth = 0
      ∧ c3FinalB.heroDead = false
      ∧ c3FinalB.delivered = [(true, "🎉 Quest Complete!")] := by
  decide

/-! ## Claim C4: the survive goal is never met -/

/-- **C4, code behaviour.** The goal `switch` of `checkWinCondition` has no
case for `survive`, so a `survive` goal always evaluates unmet: on a level
whose only goal is `survive`, with the hero alive and goal evaluation
reached, the run delivers the failure verdict with a failing checklist
message instead of success. -/
theorem c4_code_behavior :
    (∀ (lvl : Level) (s : GameState) (g : LevelGoal),
        g.type = GoalType.survive → goalMet lvl s g = false)
      ∧ executeCommands lvlC4 2 [] = some c4Final
      ∧ c4Final.heroDead = false
      ∧ c4Final.delivered = [(false, "Quest incomplete:\n❌ Stay alive")] := by
  refine ⟨fun lvl s g hg => ?_, by decide, by decide, by decide⟩
  unfold goalMet
  rw [hg]

/-- Witness for C4: the `survive` goal of `lvlC4` itself evaluates unmet in
the final state of the run. -/
theorem c4_code_behavior_witness :
    goalMet lvlC4 c4Final
      { type := GoalType.survive, description := "Stay alive" } = false :=
  c4_code_behavior.1 lvlC4 c4Final _ rfl

/-! ## Claim C10: termination of the adjacency-check loop -/

theorem getAdjacentEnemies_attackPass (l : List (String × EnemyData)) (s : GameState) :
    getAdjacentEnemies (attackPass l s) = getAdjacentEnemies s := by
  have h := attackPass_preserves l s
  exact getAdjacentEnemies_congr _ _ h.1 h.2.2.1

theorem checkAdjacentEnemies_terminates_aux (fuel : Nat) :
    ∀ s : GameState, (∀ e ∈ getAdjacentEnemies s, 0 ≤ e.2.damage) →
      (getAdjacentEnemies s = [] ∨ ∃ e ∈ getAdjacentEnemies s, 1 ≤ e.2.damage) →
      s.heroHealth ≤ (fuel : Int) →
      ∃ r, checkAdjacentEnemies (fuel + 1) s = some r := by
  induction fuel with
  | zero =>
    intro s _ _ hh
    refine ⟨s, ?_⟩
    unfold checkAdjacentEnemies
    rw [if_neg fun hcon => absurd hcon.1 (by omega)]
  | succ n ih =>
    intro s hdmg hor hh
    unfold checkAdjacentEnemies
    by_cases hguard : 0 < s.heroHealth ∧ s.heroDead = false
    · rw [if_pos hguard]
      cases hadj : getAdjacentEnemies s with
      | nil => exact ⟨s, rfl⟩
      | cons e rest =>
        dsimp only
        by_cases hdead : (attackPass (e :: rest) s).heroHealth ≤ 0
        · rw [if_pos hdead]
          exact ⟨attackPass (e :: rest) s, rfl⟩
        · rw [if_neg hdead]
          rw [hadj] at hdmg hor
          have hwit : ∃ w ∈ e :: rest, 1 ≤ w.2.damage := by
            rcases hor with hemp | hw
            · exact absurd hemp (List.cons_ne_nil _ _)
            · exact hw
          apply ih
          · rw [getAdjacentEnemies_attackPass, hadj]
            exact hdmg
          · rw [getAdjacentEnemies_attackPass, hadj]
            exact Or.inr hwit
          · have hdec := attackPass_health_decreases (e :: rest) s hdmg hwit hguard.1
            omega
    · rw [if_neg hguard]
      exact ⟨s, rfl⟩

theorem attackPass_zero_damage (l : List (String × EnemyData)) (s : GameState)
    (hd : ∀ e ∈ l, e.2.damage = 0) (hs : 0 < s.heroHealth) : attackPass l s = s := by
  induction l with
  | nil => rfl
  | cons e rest ih =>
    unfold attackPass
    rw [if_neg (by omega)]
    have hz : e.2.damage = 0 := hd e (List.mem_cons_self _ _)
    have hfix : performEnemyAttack e.2.damage s = s := by
      unfold performEnemyAttack
      dsimp only
      rw [hz, if_neg (by omega)]
      simp
    rw [hfix]
    exact ih fun x hx => hd x (List.mem_cons_of_mem _ hx)

theorem checkAdjacentEnemies_diverges (s : GameState) (hh : 0 < s.heroHealth)
    (hd : s.heroDead = false) (hne : getAdjacentEnemies s ≠ [])
    (hz : ∀ e ∈ getAdjacentEnemies s, e.2.damage = 0) :
    ∀ fuel, checkAdjacentEnemies fuel s = none := by
  intro fuel
  induction fuel with
  | zero => rfl
  | succ n ih =>
    unfold checkAdjacentEnemies
    rw [if_pos ⟨hh, hd⟩]
    cases hadj : getAdjacentEnemies s with
    | nil => exact absurd hadj hne
    | cons e rest =>
      dsimp only
      rw [hadj] at hz
      rw [attackPass_zero_damage (e :: rest) s hz hh, if_neg (by omega)]
      exact ih

/-- **C10, counterexample.** A state in which *some* live adjacent enemy has
damage 0 (`z`), yet the adjacency loop terminates: the other adjacent enemy
(`d`, damage 200) kills the hero in the very first pass, so the loop exits
with the hero dead. -/
theorem c10_counterexample :
    (∃ e ∈ getAdjacentEnemies c10Mixed, e.2.damage = 0 ∧ 0 < e.2.health)
      ∧ checkAdjacentEnemies 1 c10Mixed = some c10MixedFinal
      ∧ c10MixedFinal.heroDead = true := by
  decide

/-- **C10, amended.** With damage values non-negative (the claim's own
assumption), the adjacency-check loop terminates from every state in which
the live adjacent enemies are not all of damage 0 — every pass then strictly
decreases hero health, so `heroHealth + 1` passes suffice, including mixed
states where only some adjacent enemy has positive damage; and, for a live
hero, it runs forever *exactly when* at least one live enemy is adjacent and
all live adjacent enemies have damage 0, since such retaliation passes
neither kill enemies nor move the hero nor change hero health. -/
theorem c10_adjacency_termination :
    (∀ s : GameState, (∀ e ∈ getAdjacentEnemies s, 0 ≤ e.2.damage) →
        (getAdjacentEnemies s = [] ∨ ∃ e ∈ getAdjacentEnemies s, 1 ≤ e.2.damage) →
        ∃ r, checkAdjacentEnemies (s.heroHealth.toNat + 1) s = some r)
      ∧ (∀ s : GameState, 0 < s.heroHealth → s.heroDead = false →
          (∀ e ∈ getAdjacentEnemies s, 0 ≤ e.2.damage) →
          ((∀ fuel, checkAdjacentEnemies fuel s = none) ↔
            (getAdjacentEnemies s ≠ []
              ∧ ∀ e ∈ getAdjacentEnemies s, e.2.damage = 0))) := by
  constructor
  · intro s h0 hor
    exact checkAdjacentEnemies_terminates_aux s.heroHealth.toNat s h0 hor
      (Int.self_le_toNat _)
  · intro s hh hd h0
    constructor
    · intro hdiv
      refine ⟨?_, ?_⟩
      · intro hemp
        obtain ⟨r, hr⟩ := checkAdjacentEnemies_terminates_aux s.heroHealth.toNat s h0
          (Or.inl hemp) (Int.self_le_toNat _)
        rw [hdiv (s.heroHealth.toNat + 1)] at hr
        exact Option.noConfusion hr
      · intro e hmem
        by_contra hne
        have h1 : 1 ≤ e.2.damage := by
          have := h0 e hmem
          omega
        obtain ⟨r, hr⟩ := checkAdjacentEnemies_terminates_aux s.heroHealth.toNat s h0
          (Or.inr ⟨e, hmem, h1⟩) (Int.self_le_toNat _)
        rw [hdiv (s.heroHealth.toNat + 1)] at hr
        exact Option.noConfusion hr
    · rintro ⟨hne, hz⟩
      exact checkAdjacentEnemies_diverges s hh hd hne hz

/-- Witness for C10: the mixed state (one adjacent enemy of damage 0, one of
damage 200) terminates within the stated fuel, and a single adjacent live
enemy of damage 0 makes the loop run forever (the iff, instantiated at
fuel 5). -/
theorem c10_adjacency_termination_witness :
    (∃ r, checkAdjacentEnemies (c10Mixed.heroHealth.toNat + 1) c10Mixed = some r)
      ∧ checkAdjacentEnemies 5 c10Zero = none := by
  constructor
  · exact c10_adjacency_termination.1 c10Mixed (by decide) (by decide)
  · exact (c10_adjacency_termination.2 c10Zero (by decide) (by decide)
      (by decide)).mpr ⟨by decide, by decide⟩ 5

/-! ## Claim C7: retaliation order -/

theorem liveEnemiesAt_eq_filter (l : List (String × EnemyData)) (pos : Position) :
    liveEnemiesAt l pos
      = l.filter fun e => decide (e.2.position = pos ∧ 0 < e.2.health) := by
  induction l with
  | nil => rfl
  | cons e rest ih =>
    unfold liveEnemiesAt
    rw [List.filter_cons]
    split
    · rename_i hc
      rw [if_pos (by simpa using hc), ih]
    · rename_i hc
      rw [if_neg (by simpa using hc), ih]

theorem liveEnemiesAt_mem {l : List (String × EnemyData)} {pos : Position}
    {e : String × EnemyData} (h : e ∈ liveEnemiesAt l pos) :
    e ∈ l ∧ e.2.position = pos ∧ 0 < e.2.health := by
  rw [liveEnemiesAt_eq_filter] at h
  have h' := List.mem_filter.mp h
  exact ⟨h'.1, by simpa using h'.2⟩

theorem keys_nodup_mem_eq (l : List (String × EnemyData))
    (hn : (l.map Prod.fst).Nodup) {a b : String × EnemyData}
    (ha : a ∈ l) (hb : b ∈ l) (hk : a.1 = b.1) : a = b := by
  induction l with
  | nil => cases ha
  | cons e rest ih =>
    rw [List.map_cons, List.nodup_cons] at hn
    rcases List.mem_cons.mp ha with rfl | ha' <;>
      rcases List.mem_cons.mp hb with rfl | hb'
    · rfl
    · exact absurd (hk ▸ List.mem_map_of_mem Prod.fst hb') hn.1
    · exact absurd (hk ▸ List.mem_map_of_mem Prod.fst ha') hn.1
    · exact ih hn.2 ha' hb'

theorem liveEnemiesAt_keys_nodup (l : List (String × EnemyData))
    (hn : (l.map Prod.fst).Nodup) (pos : Position) :
    ((liveEnemiesAt l pos).map Prod.fst).Nodup := by
  rw [liveEnemiesAt_eq_filter]
  exact hn.sublist (List.Sublist.map Prod.fst (List.filter_sublist l))

theorem liveEnemiesAt_keys_disjoint (l : List (String × EnemyData))
    (hn : (l.map Prod.fst).Nodup) {p q : Position} (hpq : p ≠ q) :
    List.Disjoint ((liveEnemiesAt l p).map Prod.fst)
      ((liveEnemiesAt l q).map Prod.fst) := by
  intro k hk1 hk2
  obtain ⟨e1, he1, hk1'⟩ := List.mem_map.mp hk1
  obtain ⟨e2, he2, hk2'⟩ := List.mem_map.mp hk2
  obtain ⟨hm1, hp1, _⟩ := liveEnemiesAt_mem he1
  obtain ⟨hm2, hp2, _⟩ := liveEnemiesAt_mem he2
  have heq : e1 = e2 := keys_nodup_mem_eq l hn hm1 hm2 (hk1'.trans hk2'.symm)
  exact hpq (hp1 ▸ heq ▸ hp2)

theorem adjacentCell_ne (p : Position) (d1 d2 : HeroDirection) (h : d1 ≠ d2) :
    getPositionInDirection p d1 1 ≠ getPositionInDirection p d2 1 := by
  cases d1 <;> cases d2 <;>
    first
      | exact absurd rfl h
      | (intro hcon
         simp only [getPositionInDirection, dirDelta, Position.mk.injEq] at hcon
         omega)

/-- **C7, counterexample.** After a move, the adjacent live enemies do *not*
attack in the order they are stored in the level's enemy collection: with
enemy `a` stored first (south of the hero) and enemy `b` stored second (north
of the hero), the code's pass order is `[b, a]` — the direction scan north,
east, south, west — while the storage order is `[a, b]`. -/
theorem c7_counterexample :
    (getAdjacentEnemies c7State).map Prod.fst = ["b", "a"]
      ∧ (storedOrderAdjacent c7State).map Prod.fst = ["a", "b"]
      ∧ getAdjacentEnemies c7State ≠ storedOrderAdjacent c7State := by
  decide

/-- **C7, amended.** In each pass of the adjacency check the live adjacent
enemies attack in direction-scan order — all live enemies on the cell north
of the hero first, then east, then south, then west, each group in storage
order — and (for the duplicate-free enemy maps the game builds) each adjacent
live enemy attacks exactly once per pass. -/
theorem c7_adjacency_order (s : GameState) :
    getAdjacentEnemies s
        = (s.enemies.filter fun e =>
             decide (e.2.position = getPositionInDirection s.heroPosition .north 1
               ∧ 0 < e.2.health))
          ++ (s.enemies.filter fun e =>
             decide (e.2.position = getPositionInDirection s.heroPosition .east 1
               ∧ 0 < e.2.health))
          ++ (s.enemies.filter fun e =>
             decide (e.2.position = getPositionInDirection s.heroPosition .south 1
               ∧ 0 < e.2.health))
          ++ (s.enemies.filter fun e =>
             decide (e.2.position = getPositionInDirection s.heroPosition .west 1
               ∧ 0 < e.2.health))
      ∧ (keysNodup s → ((getAdjacentEnemies s).map Prod.fst).Nodup) := by
  constructor
  · unfold getAdjacentEnemies
    rw [liveEnemiesAt_eq_filter, liveEnemiesAt_eq_filter, liveEnemiesAt_eq_filter,
      liveEnemiesAt_eq_filter]
  · intro hn
    unfold getAdjacentEnemies
    have hnod := liveEnemiesAt_keys_nodup s.enemies hn
    have hdis := fun {p q : Position} (hpq : p ≠ q) =>
      liveEnemiesAt_keys_disjoint s.enemies hn hpq
    have hne := adjacentCell_ne s.heroPosition
    simp only [List.map_append, List.nodup_append, List.disjoint_append_left]
    refine ⟨⟨⟨hnod _, hnod _, hdis (hne _ _ ?_)⟩, hnod _,
        ⟨hdis (hne _ _ ?_), hdis (hne _ _ ?_)⟩⟩, hnod _,
      ⟨⟨hdis (hne _ _ ?_), hdis (hne _ _ ?_)⟩, hdis (hne _ _ ?_)⟩⟩ <;>
      decide

/-- Witness for C7: on the concrete two-enemy state the pass list has
duplicate-free ids. -/
theorem c7_adjacency_order_witness :
    ((getAdjacentEnemies c7State).map Prod.fst).Nodup :=
  (c7_adjacency_order c7State).2 (by decide)

/-! ## Claim C6: the hero-position invariant -/

theorem isValidPosition_eq_true_iff (lvl : Level) (s : GameState) (pos : Position) :
    isValidPosition lvl s.enemies pos = true ↔ ¬ moveBlocked lvl s pos := by
  constructor
  · intro ht hbl
    have hf := (isValidPosition_eq_false_iff lvl s pos).mpr hbl
    rw [ht] at hf
    exact Bool.noConfusion hf
  · intro hnb
    cases hb : isValidPosition lvl s.enemies pos with
    | false => exact absurd ((isValidPosition_eq_false_iff lvl s pos).mp hb) hnb
    | true => rfl

theorem heroOk_congr (lvl : Level) {s t : GameState} (hok : heroOk lvl s)
    (hp : t.heroPosition = s.heroPosition) (he : t.enemies = s.enemies) :
    heroOk lvl t := by
  refine ⟨?_, ?_, ?_⟩
  · rw [hp]
    exact hok.1
  · rw [hp]
    exact hok.2.1
  · intro e hmem hlive
    rw [he] at hmem
    rw [hp]
    exact hok.2.2 e hmem hlive

theorem updateEnemyHealth_keys (l : List (String × EnemyData)) (id : String) (h : Int) :
    (updateEnemyHealth l id h).map Prod.fst = l.map Prod.fst := by
  unfold updateEnemyHealth
  induction l with
  | nil => rfl
  | cons e rest ih =>
    simp only [List.map_cons, ih]
    split <;> rfl

theorem firstLiveAt_mem {l : List (String × EnemyData)} {pos : Position}
    {e : String × EnemyData} (h : firstLiveAt l pos = some e) :
    e ∈ l ∧ e.2.position = pos ∧ 0 < e.2.health := by
  induction l with
  | nil => exact Option.noConfusion h
  | cons a rest ih =>
    unfold firstLiveAt at h
    split at h
    · cases h
      rename_i hc
      exact ⟨List.mem_cons_self _ _, hc⟩
    · have := ih h
      exact ⟨List.mem_cons_of_mem _ this.1, this.2⟩

theorem updateEnemyHealth_mem {l : List (String × EnemyData)} {id : String}
    {h : Int} {x : String × EnemyData} (hmem : x ∈ updateEnemyHealth l id h) :
    ∃ e ∈ l, x = if e.1 = id then (e.1, { e.2 with health := h }) else e := by
  unfold updateEnemyHealth at hmem
  obtain ⟨e, he, heq⟩ := List.mem_map.mp hmem
  exact ⟨e, he, heq.symm⟩

theorem attackEnemy_heroOk (lvl : Level) (s : GameState) (hok : heroOk lvl s)
    (hn : keysNodup s) : heroOk lvl (attackEnemy s) ∧ keysNodup (attackEnemy s) := by
  have key : ∀ (id : String) (data : EnemyData),
      getEnemyAhead s = some (id, data) →
      ∀ x ∈ updateEnemyHealth s.enemies id (data.health - 20),
        0 < x.2.health → x.2.position ≠ s.heroPosition := by
    intro id data hfound x hmem hlive
    obtain ⟨e, he, heq⟩ := updateEnemyHealth_mem hmem
    obtain ⟨hmemf, _, hlivef⟩ := firstLiveAt_mem hfound
    by_cases hc : e.1 = id
    · have hed : e = (id, data) := keys_nodup_mem_eq s.enemies hn he hmemf hc
      rw [heq, if_pos hc, hed]
      exact hok.2.2 (id, data) hmemf hlivef
    · rw [heq, if_neg hc] at hlive ⊢
      exact hok.2.2 e he hlive
  have hkeys : ∀ (id : String) (h' : Int),
      keysNodup { s with enemies := updateEnemyHealth s.enemies id h' } := by
    intro id h'
    show (List.map Prod.fst (updateEnemyHealth s.enemies id h')).Nodup
    rw [updateEnemyHealth_keys]
    exact hn
  unfold attackEnemy
  cases hahead : getEnemyAhead s with
  | none => exact ⟨hok, hn⟩
  | some p =>
    obtain ⟨id, data⟩ := p
    dsimp only
    split
    · exact ⟨⟨hok.1, hok.2.1, key id data hahead⟩, hkeys id _⟩
    · exact ⟨⟨hok.1, hok.2.1, key id data hahead⟩, hkeys id _⟩

theorem collectGem_fields (lvl : Level) (s : GameState) :
    ((collectGem lvl s).2).heroPosition = s.heroPosition
      ∧ ((collectGem lvl s).2).enemies = s.enemies := by
  unfold collectGem
  cases findCollectible lvl.collectibles s.heroPosition s.collectedIds with
  | none => exact ⟨rfl, rfl⟩
  | some c => exact ⟨rfl, rfl⟩

theorem checkWinCondition_fields (lvl : Level) (s : GameState) :
    (checkWinCondition lvl s).heroPosition = s.heroPosition
      ∧ (checkWinCondition lvl s).enemies = s.enemies := by
  unfold checkWinCondition
  dsimp only
  split <;> exact ⟨rfl, rfl⟩

theorem moveHero_preserves (lvl : Level) (fuel : Nat) (steps : Int) (s : GameState)
    (b : Bool) (s1 : GameState) (h : moveHero lvl fuel steps s = some (b, s1))
    (hok : heroOk lvl s) (hn : keysNodup s) : heroOk lvl s1 ∧ keysNodup s1 := by
  unfold moveHero at h
  dsimp only at h
  split at h
  · rename_i hv
    split at h
    · exact Option.noConfusion h
    · rename_i s2 hsome
      have hpair : (true, s2) = (b, s1) := Option.some.inj h
      have hs2 : s2 = s1 := congrArg Prod.snd hpair
      have hpres := checkAdjacentEnemies_preserves fuel _ _ hsome
      have hnb := (isValidPosition_eq_true_iff lvl s _).mp hv
      have hbounds : 0 ≤ (getPositionInDirection s.heroPosition s.heroDirection steps).x
          ∧ (getPositionInDirection s.heroPosition s.heroDirection steps).x < lvl.gridWidth
          ∧ 0 ≤ (getPositionInDirection s.heroPosition s.heroDirection steps).y
          ∧ (getPositionInDirection s.heroPosition s.heroDirection steps).y < lvl.gridHeight := by
        by_contra hcon
        exact hnb (Or.inl hcon)
      have hwall : ¬ cellAt lvl.grid
          (getPositionInDirection s.heroPosition s.heroDirection steps)
            = some CellType.wall := fun hw => hnb (Or.inr (Or.inl hw))
      have henemy : ∀ e ∈ s.enemies, 0 < e.2.health →
          e.2.position ≠ getPositionInDirection s.heroPosition s.heroDirection steps := by
        intro e hmem hlive hcon
        exact hnb (Or.inr (Or.inr ⟨e, hmem, hcon, hlive⟩))
      have hok2 : heroOk lvl s2 := by
        refine ⟨?_, ?_, ?_⟩
        · rw [hpres.1]
          exact hbounds
        · rw [hpres.1]
          exact hwall
        · intro e hmem hlive
          rw [hpres.2.2.1] at hmem
          rw [hpres.1]
          exact henemy e hmem hlive
      have hn2 : keysNodup s2 := by
        show (s2.enemies.map Prod.fst).Nodup
        rw [hpres.2.2.1]
        exact hn
      rw [← hs2]
      exact ⟨hok2, hn2⟩
  · have hpair : (false, s) = (b, s1) := Option.some.inj h
    have hs1 : s = s1 := congrArg Prod.snd hpair
    rw [← hs1]
    exact ⟨hok, hn⟩

theorem executeCommand_preserves (lvl : Level) (fuel : Nat) (c : String)
    (s s1 : GameState) (h : executeCommand lvl fuel c s = some s1)
    (hok : heroOk lvl s) (hn : keysNodup s) : heroOk lvl s1 ∧ keysNodup s1 := by
  unfold executeCommand at h
  split_ifs at h
  · cases hmv : moveHero lvl fuel 1 s with
    | none =>
      rw [hmv] at h
      exact Option.noConfusion h
    | some p =>
      rw [hmv] at h
      obtain ⟨b, s2⟩ := p
      cases h
      exact moveHero_preserves lvl fuel 1 s b s2 hmv hok hn
  · cases hmv : moveHero lvl fuel (-1) s with
    | none =>
      rw [hmv] at h
      exact Option.noConfusion h
    | some p =>
      rw [hmv] at h
      obtain ⟨b, s2⟩ := p
      cases h
      exact moveHero_preserves lvl fuel (-1) s b s2 hmv hok hn
  · cases h
    exact ⟨heroOk_congr lvl hok rfl rfl, hn⟩
  · cases h
    exact ⟨heroOk_congr lvl hok rfl rfl, hn⟩
  · cases h
    have hf := collectGem_fields lvl s
    exact ⟨heroOk_congr lvl hok hf.1 hf.2, by
      show (((collectGem lvl s).2).enemies.map Prod.fst).Nodup
      rw [hf.2]
      exact hn⟩
  · cases h
    exact attackEnemy_heroOk lvl s hok hn
  · cases h
    exact ⟨hok, hn⟩

theorem runCommands_preserves (lvl : Level) (fuel : Nat) (cmds : List String) :
    ∀ s s1, heroOk lvl s → keysNodup s → runCommands lvl fuel cmds s = some s1 →
      heroOk lvl s1 ∧ keysNodup s1 := by
  induction cmds with
  | nil =>
    intro s s1 hok hn h
    unfold runCommands at h
    cases h
    split
    · have hf := checkWinCondition_fields lvl s
      exact ⟨heroOk_congr lvl hok hf.1 hf.2, by
        show ((checkWinCondition lvl s).enemies.map Prod.fst).Nodup
        rw [hf.2]
        exact hn⟩
    · exact ⟨hok, hn⟩
  | cons c rest ih =>
    intro s s1 hok hn h
    unfold runCommands at h
    split at h
    · cases h
      exact ⟨hok, hn⟩
    · split at h
      · exact Option.noConfusion h
      · rename_i s2 hcmd
        exact ih s2 s1 (executeCommand_preserves lvl fuel c s s2 hcmd hok hn).1
          (executeCommand_preserves lvl fuel c s s2 hcmd hok hn).2 h

theorem map_fst_overwrite (m : List (String × EnemyData)) (id : String)
    (v : EnemyData) :
    ((m.map fun e => if e.1 = id then (id, v) else e).map Prod.fst)
      = m.map Prod.fst := by
  induction m with
  | nil => rfl
  | cons e rest ih =>
    simp only [List.map_cons, ih]
    by_cases he : e.1 = id
    · rw [if_pos he, he]
    · rw [if_neg he]

theorem mapSet_keys (m : List (String × EnemyData)) (id : String) (v : EnemyData) :
    (mapSet m id v).map Prod.fst
      = if m.any (fun e => decide (e.1 = id)) then m.map Prod.fst
        else m.map Prod.fst ++ [id] := by
  unfold mapSet
  split
  · exact map_fst_overwrite m id v
  · simp

theorem mapSet_keys_nodup (m : List (String × EnemyData)) (id : String)
    (v : EnemyData) (hn : (m.map Prod.fst).Nodup) :
    ((mapSet m id v).map Prod.fst).Nodup := by
  rw [mapSet_keys]
  split
  · exact hn
  · rename_i hc
    have hid : id ∉ m.map Prod.fst := by
      intro hmem
      obtain ⟨e, he, heq⟩ := List.mem_map.mp hmem
      exact hc (List.any_eq_true.mpr ⟨e, he, by simp [heq]⟩)
    simp [List.nodup_append, hn, hid]

theorem initEnemies_keys_nodup (es : List Enemy) :
    ((initEnemies es).map Prod.fst).Nodup := by
  unfold initEnemies
  have hgen : ∀ m : List (String × EnemyData), (m.map Prod.fst).Nodup →
      ((es.foldl (fun m e =>
          mapSet m e.id ⟨e.health, e.health, e.damage, e.position⟩) m).map Prod.fst).Nodup := by
    induction es with
    | nil => exact fun m hm => hm
    | cons e rest ih =>
      intro m hm
      exact ih _ (mapSet_keys_nodup m e.id _ hm)
  exact hgen [] List.nodup_nil

/-- **C6.** For every run (any command list, any fuel) whose initial state
satisfies the position invariant — inside grid bounds, not on a wall cell,
not on a live enemy — the final state satisfies it too; since the command
list is universally quantified, every state reached between commands during
any run satisfies the invariant (commands are the only state transitions that
move the hero). -/
theorem c6_position_invariant (lvl : Level) (fuel : Nat) (cmds : List String)
    (s1 : GameState) (h0 : heroOk lvl (initialState lvl))
    (hrun : executeCommands lvl fuel cmds = some s1) : heroOk lvl s1 :=
  (runCommands_preserves lvl fuel cmds (initialState lvl) s1 h0
    (initEnemies_keys_nodup lvl.enemies) hrun).1

/-- Witness for C6: a concrete run on `lvlC6` (the hero moves next to a live
enemy and dies to retaliation) whose final state still satisfies the
invariant. -/
theorem c6_position_invariant_witness : heroOk lvlC6 c6Final :=
  c6_position_invariant lvlC6 25 ["move_forward"] c6Final (by decide) (by decide)

/-! ## Claim C8: the collect resolver -/

theorem findCollectible_eq_none (l : List Collectible) (pos : Position)
    (coll : List String)
    (h : ∀ c ∈ l, ¬ (c.position = pos ∧ c.id ∉ coll)) :
    findCollectible l pos coll = none := by
  induction l with
  | nil => rfl
  | cons c rest ih =>
    unfold findCollectible
    rw [if_neg (h c (List.mem_cons_self _ _))]
    exact ih fun x hx => h x (List.mem_cons_of_mem _ hx)

theorem findCollectible_first (pre : List Collectible) (c : Collectible)
    (suf : List Collectible) (pos : Position) (coll : List String)
    (hpre : ∀ x ∈ pre, ¬ (x.position = pos ∧ x.id ∉ coll))
    (hc : c.position = pos ∧ c.id ∉ coll) :
    findCollectible (pre ++ c :: suf) pos coll = some c := by
  induction pre with
  | nil =>
    rw [List.nil_append]
    unfold findCollectible
    rw [if_pos hc]
  | cons x rest ih =>
    rw [List.cons_append]
    unfold findCollectible
    rw [if_neg (hpre x (List.mem_cons_self _ _))]
    exact ih fun y hy => hpre y (List.mem_cons_of_mem _ hy)

theorem findCollectible_some {l : List Collectible} {pos : Position}
    {coll : List String} {c : Collectible} (h : findCollectible l pos coll = some c) :
    c ∈ l ∧ c.position = pos ∧ c.id ∉ coll := by
  induction l with
  | nil => exact Option.noConfusion h
  | cons a rest ih =>
    unfold findCollectible at h
    split at h
    · cases h
      rename_i hc
      exact ⟨List.mem_cons_self _ _, hc⟩
    · have := ih h
      exact ⟨List.mem_cons_of_mem _ this.1, this.2⟩

/-- **C8.** Each `collect` invocation collects at most one collectible: the
first, in level definition order, uncollected collectible at the hero's cell
is marked collected and `true` is returned; with none present it is a no-op
returning `false` (in particular on an already fully collected cell).  The
collected set only grows, stays duplicate-free with ids drawn from the
level's collectibles, and never exceeds the level's total collectible
count. -/
theorem c8_collect_rule (lvl : Level) (s : GameState) :
    (∀ pre c suf, lvl.collectibles = pre ++ c :: suf →
        (∀ x ∈ pre, ¬ (x.position = s.heroPosition ∧ x.id ∉ s.collectedIds)) →
        c.position = s.heroPosition → c.id ∉ s.collectedIds →
        collectGem lvl s
          = (true, { s with collectedIds := s.collectedIds ++ [c.id] }))
      ∧ ((∀ c ∈ lvl.collectibles,
            ¬ (c.position = s.heroPosition ∧ c.id ∉ s.collectedIds)) →
          collectGem lvl s = (false, s))
      ∧ s.collectedIds ⊆ ((collectGem lvl s).2).collectedIds
      ∧ (s.collectedIds.Nodup →
          (∀ i ∈ s.collectedIds, i ∈ lvl.collectibles.map Collectible.id) →
          (((collectGem lvl s).2).collectedIds.Nodup
            ∧ (∀ i ∈ ((collectGem lvl s).2).collectedIds,
                i ∈ lvl.collectibles.map Collectible.id)
            ∧ ((collectGem lvl s).2).collectedIds.length
                ≤ lvl.collectibles.length)) := by
  refine ⟨?_, ?_, ?_, ?_⟩
  · intro pre c suf hsplit hpre hpos hid
    unfold collectGem
    rw [hsplit, findCollectible_first pre c suf _ _ hpre ⟨hpos, hid⟩]
    dsimp only
    unfold setAdd
    rw [if_neg hid]
  · intro hall
    unfold collectGem
    rw [findCollectible_eq_none _ _ _ hall]
  · unfold collectGem
    cases hf : findCollectible lvl.collectibles s.heroPosition s.collectedIds with
    | none => exact fun i hi => hi
    | some c =>
      dsimp only
      unfold setAdd
      split
      · exact fun i hi => hi
      · exact fun i hi => List.mem_append_left _ hi
  · intro hnod hsub
    unfold collectGem
    cases hf : findCollectible lvl.collectibles s.heroPosition s.collectedIds with
    | none =>
      refine ⟨hnod, hsub, ?_⟩
      calc s.collectedIds.length
          ≤ (lvl.collectibles.map Collectible.id).length :=
            (hnod.subperm hsub).length_le
        _ = lvl.collectibles.length := List.length_map _ _
    | some c =>
      obtain ⟨hmem, _, hid⟩ := findCollectible_some hf
      dsimp only
      unfold setAdd
      rw [if_neg hid]
      have hnod2 : (s.collectedIds ++ [c.id]).Nodup := by
        simp [List.nodup_append, hnod, hid]
      have hsub2 : ∀ i ∈ s.collectedIds ++ [c.id],
          i ∈ lvl.collectibles.map Collectible.id := by
        intro i hi
        rcases List.mem_append.mp hi with hi' | hi'
        · exact hsub i hi'
        · rw [List.mem_singleton.mp hi']
          exact List.mem_map_of_mem Collectible.id hmem
      refine ⟨hnod2, hsub2, ?_⟩
      calc (s.collectedIds ++ [c.id]).length
          ≤ (lvl.collectibles.map Collectible.id).length :=
            (hnod2.subperm hsub2).length_le
        _ = lvl.collectibles.length := List.length_map _ _

/-- Witness for C8: on `lvlC8` the first uncollected collectible at the start
cell (`s1`) is collected, and the collected set stays within the level's
collectible count. -/
theorem c8_collect_rule_witness :
    collectGem lvlC8 (initialState lvlC8)
        = (true, { initialState lvlC8 with
            collectedIds := (initialState lvlC8).collectedIds ++ ["s1"] })
      ∧ ((collectGem lvlC8 (initialState lvlC8)).2).collectedIds.length
          ≤ lvlC8.collectibles.length := by
  have h := c8_collect_rule lvlC8 (initialState lvlC8)
  constructor
  · exact h.1 [] ⟨"s1", "sample", ⟨0, 0⟩⟩
      [⟨"s2", "sample", ⟨0, 0⟩⟩, ⟨"s3", "gem", ⟨1, 0⟩⟩] rfl
      (by intro x hx; cases hx) rfl (by decide)
  · exact (h.2.2.2 (by decide) (by decide)).2.2
